import Mathlib

/-!
Verification development for the `insights-mcp-evaluation` repository
(`src/agent/evaluator.py`, `src/agent/registry.py`, `src/agent/mcp_stdio.py`).

The Python code manipulates JSON-decoded values (`json.loads` output and
dictionaries built by the program).  We embed those values as the inductive
type `JVal` and translate each relevant Python function into a Lean function
over `JVal`.  Python operations that can raise an exception on some value
shapes (attribute access such as `.get` on a non-dict, `in` on a
non-container, indexing a string/list with a string key, iterating a
non-iterable) are embedded in `Except Unit _`: `.error ()` marks the point
where the Python code would raise.  Python dictionaries (string-keyed, as
all JSON objects are) are embedded as association lists with first-match
lookup and insertion-order preserving update, matching CPython dict
semantics.
-/

set_option autoImplicit false

namespace MCPEval

/-- A JSON-decoded Python value.  Numbers are modelled as integers (the
payloads manipulated by the claims never involve non-integral numbers). -/
inductive JVal where
  | null
  | bool (b : Bool)
  | num (n : Int)
  | str (s : String)
  | arr (elems : List JVal)
  | obj (fields : List (String × JVal))
  deriving Repr

/-! Character-list implementations of the string operations the Python
code uses (`strip`, `lower`, `startswith`, `in`, slicing, `split`,
`replace`).  Lean core's byte-position-based `String` functions are
avoided so that every definition evaluates by kernel reduction on
concrete inputs.  `lower` is ASCII (the sentinels compared against are
ASCII). -/

/-- The whitespace of Python's `str.strip()`. -/
def isWs (c : Char) : Bool :=
  c == ' ' || c == '\t' || c == '\n' || c == '\r' || c == '\x0b' || c == '\x0c'

/-- Python `str.strip()`. -/
def pyStrip (s : String) : String :=
  ⟨((s.data.dropWhile isWs).reverse.dropWhile isWs).reverse⟩

/-- ASCII lowering of one character. -/
def lowerChar (c : Char) : Char :=
  if 'A' ≤ c && c ≤ 'Z' then Char.ofNat (c.toNat + 32) else c

/-- Python `str.lower()` (ASCII). -/
def pyLower (s : String) : String :=
  ⟨s.data.map lowerChar⟩

/-- Whether `ps` is a prefix of `cs`. -/
def charsStartWith : List Char → List Char → Bool
  | _, [] => true
  | [], _ :: _ => false
  | c :: cs, p :: ps => c == p && charsStartWith cs ps

/-- Python `s.startswith(pre)`. -/
def pyStartsWith (s pre : String) : Bool :=
  charsStartWith s.data pre.data

/-- Whether `sub` occurs in `hay`. -/
def charsContain (sub : List Char) : List Char → Bool
  | [] => charsStartWith [] sub
  | c :: rest => charsStartWith (c :: rest) sub || charsContain sub rest

/-- Python substring containment `sub in hay` for strings. -/
def containsSub (hay sub : String) : Bool :=
  charsContain sub.data hay.data

/-- Python slicing `s[:n]`. -/
def pyTake (s : String) (n : Nat) : String :=
  ⟨s.data.take n⟩

/-- Helper of `pySplitChar`: split at a separator character, keeping
empty pieces, like Python `str.split(sep)`. -/
def splitOnCharAux (sep : Char) : List Char → List Char → List String
  | [], acc => [⟨acc.reverse⟩]
  | c :: rest, acc =>
    if c == sep then ⟨acc.reverse⟩ :: splitOnCharAux sep rest []
    else splitOnCharAux sep rest (c :: acc)

/-- Python `s.split(sep)` for a one-character separator. -/
def pySplitChar (s : String) (sep : Char) : List String :=
  splitOnCharAux sep s.data []

/-- `s.replace("'", '"')`: with a one-character pattern and replacement,
Python's `str.replace` is a character map. -/
def quotesNormalised (s : String) : String :=
  ⟨s.data.map (fun c => if c == '\'' then '"' else c)⟩

/-- Python truthiness (`bool(v)`) of a JSON-decoded value: `None`, `False`,
`0`, `""`, `[]` and `{}` are falsy, everything else truthy. -/
def pyTruthy : JVal → Bool
  | .null => false
  | .bool b => b
  | .num n => n != 0
  | .str s => !s.data.isEmpty
  | .arr xs => !xs.isEmpty
  | .obj f => !f.isEmpty

/-- Python `v == s` for a string literal `s`: only a `str` with equal
contents compares equal (no bool/int crossing with strings). -/
def pyEqStr : JVal → String → Bool
  | .str t, s => t == s
  | _, _ => false

/-- Python `v == n` for an integer `n`: `num` compares by value and `bool`
crosses (`True == 1`, `False == 0`); anything else is unequal. -/
def pyEqInt : JVal → Int → Bool
  | .num m, n => m == n
  | .bool b, n => (if b then (1 : Int) else 0) == n
  | _, _ => false

/-- First-match lookup in a (string-keyed) Python dict, `d.get(key)`
returning `none` when absent. -/
def getKey : List (String × JVal) → String → Option JVal
  | [], _ => none
  | (k, v) :: rest, key => if k = key then some v else getKey rest key

/-- `d.get(key, default)`. -/
def getKeyD (d : List (String × JVal)) (key : String) (dflt : JVal) : JVal :=
  (getKey d key).getD dflt

/-- `key in d` for a Python dict. -/
def hasKey (d : List (String × JVal)) (key : String) : Bool :=
  (getKey d key).isSome

/-- `d[key] = v` for a Python dict: replaces the value in place when the key
is present, appends otherwise (CPython insertion-order semantics). -/
def setKey : List (String × JVal) → String → JVal → List (String × JVal)
  | [], key, v => [(key, v)]
  | (k, w) :: rest, key, v =>
    if k = key then (key, v) :: rest else (k, w) :: setKey rest key v

mutual

/-- Python `repr` of a JSON-decoded value (used by f-string interpolation of
dicts/lists); strings are single-quoted, `None`/`True`/`False` capitalised. -/
def pyRepr : JVal → String
  | .null => "None"
  | .bool true => "True"
  | .bool false => "False"
  | .num n => toString n
  | .str s => "'" ++ s ++ "'"
  | .arr xs => "[" ++ pyReprElems xs ++ "]"
  | .obj f => "\x7b" ++ pyReprFields f ++ "\x7d"

/-- Comma-separated `repr` of list elements. -/
def pyReprElems : List JVal → String
  | [] => ""
  | [v] => pyRepr v
  | v :: rest => pyRepr v ++ ", " ++ pyReprElems rest

/-- Comma-separated `repr` of dict entries. -/
def pyReprFields : List (String × JVal) → String
  | [] => ""
  | [(k, v)] => "'" ++ k ++ "': " ++ pyRepr v
  | (k, v) :: rest => "'" ++ k ++ "': " ++ pyRepr v ++ ", " ++ pyReprFields rest

end

/-- Python `str(v)`: like `repr` except a top-level string is unquoted. -/
def pyStr : JVal → String
  | .str s => s
  | v => pyRepr v

/-! ### A model of `json.loads`

`evaluator._validate_content_check` re-parses a structured result that
arrived as a string (after replacing single quotes with double quotes).
We model `json.loads` with a fueled recursive-descent parser over the
common JSON grammar: objects, arrays, strings (with the usual one-letter
escapes), integers, `true`/`false`/`null`.  Non-integral numbers and
`\u` escapes are treated as parse failures; the caller catches failure
(`except: pass`), so this only affects which branch the Python code takes
on payloads outside the integer grammar. -/

/-- Drop leading JSON whitespace. -/
def skipWs : List Char → List Char
  | c :: rest =>
    if c = ' ' ∨ c = '\t' ∨ c = '\n' ∨ c = '\r' then skipWs rest else c :: rest
  | [] => []

/-- Parse the body of a JSON string after the opening quote. -/
def parseStringBody : List Char → String → Option (String × List Char)
  | [], _ => none
  | '"' :: rest, acc => some (acc, rest)
  | '\\' :: c :: rest, acc =>
    if c = '"' then parseStringBody rest (acc.push '"')
    else if c = '\\' then parseStringBody rest (acc.push '\\')
    else if c = '/' then parseStringBody rest (acc.push '/')
    else if c = 'n' then parseStringBody rest (acc.push '\n')
    else if c = 't' then parseStringBody rest (acc.push '\t')
    else if c = 'r' then parseStringBody rest (acc.push '\r')
    else none
  | c :: rest, acc => parseStringBody rest (acc.push c)

/-- Parse a nonempty run of digits into a natural number. -/
def parseNatNum : List Char → Nat → Bool → Option (Nat × List Char)
  | c :: rest, acc, _ =>
    if c.isDigit then parseNatNum rest (acc * 10 + (c.toNat - '0'.toNat)) true
    else if c = '.' ∨ c = 'e' ∨ c = 'E' then none
    else some (acc, c :: rest)
  | [], acc, seen => if seen then some (acc, []) else none

mutual

/-- Fueled JSON value parser. -/
def parseVal : Nat → List Char → Option (JVal × List Char)
  | 0, _ => none
  | fuel + 1, cs =>
    match skipWs cs with
    | 'n' :: 'u' :: 'l' :: 'l' :: rest => some (.null, rest)
    | 't' :: 'r' :: 'u' :: 'e' :: rest => some (.bool true, rest)
    | 'f' :: 'a' :: 'l' :: 's' :: 'e' :: rest => some (.bool false, rest)
    | '"' :: rest =>
      match parseStringBody rest "" with
      | some (s, r) => some (.str s, r)
      | none => none
    | '[' :: rest =>
      (match skipWs rest with
       | ']' :: r2 => some (.arr [], r2)
       | _ => parseElems fuel rest [])
    | '\x7b' :: rest =>
      (match skipWs rest with
       | '\x7d' :: r2 => some (.obj [], r2)
       | _ => parseFields fuel rest [])
    | '-' :: rest =>
      match parseNatNum rest 0 false with
      | some (n, r) => some (.num (-(n : Int)), r)
      | none => none
    | c :: rest =>
      if c.isDigit then
        match parseNatNum (c :: rest) 0 false with
        | some (n, r) => some (.num (n : Int), r)
        | none => none
      else none
    | [] => none

/-- Fueled parser for the elements of a JSON array (after `[`). -/
def parseElems : Nat → List Char → List JVal → Option (JVal × List Char)
  | 0, _, _ => none
  | fuel + 1, cs, acc =>
    match parseVal fuel cs with
    | some (v, r) =>
      (match skipWs r with
       | ',' :: r2 => parseElems fuel r2 (acc ++ [v])
       | ']' :: r2 => some (.arr (acc ++ [v]), r2)
       | _ => none)
    | none => none

/-- Fueled parser for the entries of a JSON object (after the opening
brace); a repeated key keeps the last value, as `json.loads` does. -/
def parseFields : Nat → List Char → List (String × JVal) → Option (JVal × List Char)
  | 0, _, _ => none
  | fuel + 1, cs, acc =>
    match skipWs cs with
    | '"' :: rest =>
      (match parseStringBody rest "" with
       | some (k, r) =>
         (match skipWs r with
          | ':' :: r2 =>
            (match parseVal fuel r2 with
             | some (v, r3) =>
               (match skipWs r3 with
                | ',' :: r4 => parseFields fuel r4 (setKey acc k v)
                | '\x7d' :: r4 => some (.obj (setKey acc k v), r4)
                | _ => none)
             | none => none)
          | _ => none)
       | none => none)
    | _ => none

end

/-- `json.loads(s)`: parse one value and require only whitespace after it. -/
def jsonLoads (s : String) : Option JVal :=
  match parseVal (2 * s.length + 2) s.data with
  | some (v, rest) => if (skipWs rest).isEmpty then some v else none
  | none => none

/-! ### `src/agent/registry.py`

`ToolRegistry.tools` is a Python dict.  Its keys are whatever values were
read from each descriptor's `"name"` field, so the catalog is embedded as
an association list with `JVal` keys, using Python's cross-type key
equality (`True == 1`) and keeping the first-inserted key object on
update, as CPython dicts do. -/

/-- Python `==` between two hashable JSON scalars used as dict keys. -/
def pyEqKey : JVal → JVal → Bool
  | .null, .null => true
  | .bool a, .bool b => a == b
  | .bool a, .num n => (if a then (1 : Int) else 0) == n
  | .num n, .bool b => n == (if b then (1 : Int) else 0)
  | .num a, .num b => a == b
  | .str a, .str b => a == b
  | _, _ => false

/-- The registry's `self.tools` dict. -/
abbrev Catalog := List (JVal × JVal)

/-- `self.tools[name] = tool`: replace the value of a matching key (keeping
the first-inserted key object) or append a new entry. -/
def setCatKey : Catalog → JVal → JVal → Catalog
  | [], k, v => [(k, v)]
  | (k', v') :: rest, k, v =>
    if pyEqKey k' k then (k', v) :: rest else (k', v') :: setCatKey rest k v

/-- Whether a JSON value is hashable in Python (usable as a dict key). -/
def hashableKey : JVal → Bool
  | .arr _ => false
  | .obj _ => false
  | _ => true

/-- `ToolRegistry.register_tools`: for each descriptor, read
`tool.get("name", "")` and store the descriptor under that name when the
name is truthy.  `.get` on a non-dict descriptor raises `AttributeError`;
storing under an unhashable (list/dict) name raises `TypeError`. -/
def register_tools : List JVal → Catalog → Except Unit Catalog
  | [], cat => .ok cat
  | t :: rest, cat =>
    match t with
    | .obj f =>
      let name := getKeyD f "name" (.str "")
      if pyTruthy name then
        if hashableKey name then register_tools rest (setCatKey cat name t)
        else .error ()
      else register_tools rest cat
    | _ => .error ()

/-- `ToolRegistry.clear`: `self.tools.clear()`. -/
def clearCatalog (_cat : Catalog) : Catalog := []

/-- `self.tools[name]` / `self.tools.get(name)`: the value stored under
the first key Python-equal to `name`. -/
def getCatKey : Catalog → JVal → Option JVal
  | [], _ => none
  | (k, v) :: rest, key => if pyEqKey k key then some v else getCatKey rest key

/-- The descriptor a run of `register_tools` leaves under key `n`: the
last dict in the list whose `name` value is truthy and Python-equal to
`n` (later registrations overwrite earlier ones), `none` when no
descriptor targets that key. -/
def lastTruthyNamed (n : JVal) : List JVal → Option JVal
  | [] => none
  | t :: rest =>
    match lastTruthyNamed n rest with
    | some u => some u
    | none =>
      match t with
      | .obj f =>
        if pyTruthy (getKeyD f "name" (.str "")) &&
            pyEqKey (getKeyD f "name" (.str "")) n then
          some (JVal.obj f)
        else none
      | _ => none

/-- `ToolRegistry._convert_input_schema` on its declared input type (a
dict): pass through a schema already declaring `type: object`; default an
empty schema; wrap a schema that has `properties`; otherwise default. -/
def convert_input_schema (input_schema : List (String × JVal)) :
    List (String × JVal) :=
  if hasKey input_schema "type" &&
      pyEqStr (getKeyD input_schema "type" JVal.null) "object" then
    input_schema
  else if input_schema.isEmpty then
    [("type", .str "object"), ("properties", .obj []), ("required", .arr [])]
  else if hasKey input_schema "properties" then
    [("type", .str "object"),
     ("properties", getKeyD input_schema "properties" JVal.null),
     ("required", getKeyD input_schema "required" (.arr []))]
  else
    [("type", .str "object"), ("properties", .obj []), ("required", .arr [])]

/-! ### `src/agent/evaluator.py` — parameter validation and the success
classifier -/

/-- Python `v is None`. -/
def isNone : JVal → Bool
  | .null => true
  | _ => false

/-- Python `isinstance(v, str) and v.strip() == ""`. -/
def isBlankStr : JVal → Bool
  | .str s => pyStrip s == ""
  | _ => false

/-- Python `v == []`. -/
def isEmptyList : JVal → Bool
  | .arr [] => true
  | _ => false

/-- Python `key in container` for a string key: dict-key membership,
list membership by `==`, substring test on a string; raises `TypeError`
on a non-container. -/
def pyInStr (key : String) : JVal → Except Unit Bool
  | .obj f => .ok (hasKey f key)
  | .arr xs => .ok (xs.any (fun v => pyEqStr v key))
  | .str s => .ok (containsSub s key)
  | _ => .error ()

/-- Python `container[key]` for a string key: dict indexing (`KeyError`
when absent); raises `TypeError` on anything that is not a dict. -/
def pyIndexStr (key : String) : JVal → Except Unit JVal
  | .obj f =>
    (match getKey f key with
     | some v => .ok v
     | none => .error ())
  | _ => .error ()

/-- The `for param_name, requirement in expected_params.items()` loop of
`Evaluator._validate_parameters`. -/
def checkRequired (actual : JVal) : List (String × JVal) → Except Unit Bool
  | [] => .ok true
  | (param_name, requirement) :: rest =>
    if pyEqStr requirement "required" then do
      let mem ← pyInStr param_name actual
      if !mem then pure false
      else do
        let param_value ← pyIndexStr param_name actual
        if isNone param_value || isBlankStr param_value then pure false
        else checkRequired actual rest
    else checkRequired actual rest

/-- `Evaluator._validate_parameters`: trivially true when the expectation
map is falsy; otherwise every parameter marked `"required"` must be a key
of the arguments whose value is neither `None` nor a blank string. -/
def validate_parameters (actual_params expected_params : JVal) :
    Except Unit Bool :=
  if !pyTruthy expected_params then .ok true
  else
    match expected_params with
    | .obj kvs => checkRequired actual_params kvs
    | _ => .error ()

/-- `Evaluator._evaluate_technical_success`: false on transport failure or
a non-dict result; false on a truthy `isError` flag; false when the
structured-content result string starts with `"Error:"`; `.get` on a
non-dict `structuredContent` raises `AttributeError`. -/
def evaluate_technical_success (call_success : Bool) (call_result : JVal) :
    Except Unit Bool :=
  if !call_success then .ok false
  else
    match call_result with
    | .obj cr =>
      if pyTruthy (getKeyD cr "isError" (.bool false)) then .ok false
      else
        match getKeyD cr "structuredContent" (.obj []) with
        | .obj scf =>
          (match getKeyD scf "result" (.str "") with
           | .str s => if pyStartsWith s "Error:" then .ok false else .ok true
           | _ => .ok true)
        | _ => .error ()
    | _ => .ok false

/-- One value of `_has_meaningful_content`'s generic-object branch: the
generator keeps `v` when `v is not None and v != "" and v != []`, and
`any(...)` then tests the kept value's truthiness. -/
def meaningfulVal (v : JVal) : Bool :=
  (!isNone v && !pyEqStr v "" && !isEmptyList v) && pyTruthy v

/-- The `for item in content` loop of `_has_meaningful_content`: a text
item with non-empty stripped text not starting with `"Error:"` succeeds;
`.strip()` on a non-string `text` raises `AttributeError`. -/
def contentItems : List JVal → Except Unit Bool
  | [] => .ok false
  | item :: rest =>
    match item with
    | .obj f =>
      if pyEqStr (getKeyD f "type" JVal.null) "text" then
        match getKeyD f "text" (.str "") with
        | .str t0 =>
          let text := pyStrip t0
          if !text.data.isEmpty && !pyStartsWith text "Error:" then .ok true
          else contentItems rest
        | _ => .error ()
      else contentItems rest
    | _ => contentItems rest

/-- Lines 277–286 of `evaluator.py`: inspect `call_result.get("content",
[])` for a meaningful text item. -/
def contentFallback (cr : List (String × JVal)) : Except Unit Bool :=
  match getKeyD cr "content" (.arr []) with
  | .arr items => if items.isEmpty then .ok false else contentItems items
  | _ => .ok false

/-- `Evaluator._has_meaningful_content`.  Note the string branch: a string
result that passes the emptiness/sentinel checks does **not** return true;
control falls through to the `content` inspection (there is no
`return True` in that branch of the source). -/
def has_meaningful_content (call_result : JVal) : Except Unit Bool :=
  match call_result with
  | .obj cr =>
    (match getKeyD cr "structuredContent" (.obj []) with
     | .obj scf =>
       (match getKeyD scf "result" JVal.null with
        | .str s0 =>
          let rd := pyStrip s0
          if rd.data.isEmpty ||
              (pyLower rd == "none" || pyLower rd == "null" ||
               pyLower rd == "empty") then
            .ok false
          else if pyStartsWith rd "Error:" || pyStartsWith rd "Failed:" then
            .ok false
          else
            contentFallback cr
        | .obj rdf =>
          if hasKey rdf "data" then
            .ok (match getKeyD rdf "data" JVal.null with
                 | .arr xs => !xs.isEmpty
                 | _ => false)
          else
            .ok (!rdf.isEmpty && rdf.any (fun kv => meaningfulVal kv.2))
        | .arr xs => .ok (!xs.isEmpty)
        | _ => contentFallback cr)
     | _ => contentFallback cr)
  | _ => .ok false

/-- The descent loop of `Evaluator._check_field_exists`. -/
def descendPath : JVal → List String → Bool
  | _, [] => true
  | data, field :: rest =>
    match data with
    | .obj f =>
      (match getKey f field with
       | some v => descendPath v rest
       | none => false)
    | _ => false

/-- `Evaluator._check_field_exists`: resolve a dot-separated path through
nested dicts. -/
def check_field_exists (data : JVal) (field_path : String) : Bool :=
  descendPath data (pySplitChar field_path '.')

/-- Python `a < v` for a natural `a` (the `len(...) < min_items`
comparison): compares against numbers and bools, raises `TypeError`
otherwise. -/
def pyLtNat (a : Nat) : JVal → Except Unit Bool
  | .num m => .ok (decide ((a : Int) < m))
  | .bool b => .ok (decide ((a : Int) < if b then 1 else 0))
  | _ => .error ()

/-- Python `for x in v`: iterate a list's elements, a string's characters
(as one-character strings), a dict's keys; raise `TypeError` otherwise. -/
def pyIter : JVal → Except Unit (List JVal)
  | .arr xs => .ok xs
  | .str s => .ok (s.data.map (fun c => .str (String.singleton c)))
  | .obj f => .ok (f.map (fun kv => JVal.str kv.1))
  | _ => .error ()

/-- The `for field_path in required_fields` loop of
`_validate_content_check`; `.split` on a non-string element raises. -/
def requiredFieldsCheck (rd : JVal) : List JVal → Except Unit (Bool × String)
  | [] => .ok (true, "Content validation passed")
  | fp :: rest =>
    match fp with
    | .str p =>
      if !check_field_exists rd p then
        .ok (false, "Required field '" ++ p ++ "' is missing")
      else requiredFieldsCheck rd rest
    | _ => .error ()

/-- `Evaluator._validate_content_check`: re-parse a string result (after
quote normalisation, keeping the string when parsing fails), require a
dict, enforce `min_items` on a `data` list and the presence of each
dot-path in `required_fields`. -/
def validate_content_check (call_result rules : JVal) :
    Except Unit (Bool × String) :=
  match call_result with
  | .obj cr =>
    (match getKeyD cr "structuredContent" (.obj []) with
     | .obj scf =>
       let rd0 := getKeyD scf "result" JVal.null
       let rd :=
         match rd0 with
         | .str s =>
           (match jsonLoads (quotesNormalised s) with
            | some v => v
            | none => JVal.str s)
         | v => v
       match rd with
       | .obj rdf =>
         (match rules with
          | .obj rf => do
            let min_items := getKeyD rf "min_items" (.num 0)
            let proceed ←
              if hasKey rdf "data" then
                match getKeyD rdf "data" JVal.null with
                | .arr xs => do
                  let lt ← pyLtNat xs.length min_items
                  if lt then
                    pure (some (false,
                      "Expected at least " ++ pyStr min_items ++
                      " items, got " ++ toString xs.length))
                  else pure none
                | _ => pure none
              else pure none
            match proceed with
            | some failure => pure failure
            | none => do
              let fps ← pyIter (getKeyD rf "required_fields" (.arr []))
              requiredFieldsCheck (.obj rdf) fps
          | _ => .error ())
       | _ => .ok (false, "Result is not a valid data structure")
     | _ => .error ())
  | _ => .error ()

/-- `Evaluator._basic_content_validation`: a meaningful-content check plus
a scan of the structured result string for error-indicator substrings. -/
def basic_content_validation (call_result : JVal) :
    Except Unit (Bool × String) := do
  let m ← has_meaningful_content call_result
  if !m then pure (false, "No meaningful content found")
  else
    match call_result with
    | .obj cr =>
      (match getKeyD cr "structuredContent" (.obj []) with
       | .obj scf =>
         (match getKeyD scf "result" (.str "") with
          | .str s0 =>
            let rd := pyStrip s0
            let low := pyLower rd
            if containsSub low "error" || containsSub low "failed" ||
               containsSub low "exception" || containsSub low "not found" ||
               containsSub low "invalid" then
              pure (false, "Result contains error indicators: " ++ pyTake rd 100)
            else pure (true, "Basic validation passed")
          | _ => pure (true, "Basic validation passed"))
       | _ => .error ())
    | _ => .error ()

/-- `Evaluator._validate_data_structure`: defers to basic validation. -/
def validate_data_structure (call_result _rules : JVal) :
    Except Unit (Bool × String) :=
  basic_content_validation call_result

/-- `Evaluator._validate_against_expected`: dispatch on the expectation's
`type` tag. -/
def validate_against_expected (call_result expected_result : JVal) :
    Except Unit (Bool × String) :=
  match expected_result with
  | .obj ef =>
    let vt := getKeyD ef "type" (.str "basic")
    if pyEqStr vt "content_check" then
      validate_content_check call_result expected_result
    else if pyEqStr vt "data_structure" then
      validate_data_structure call_result expected_result
    else
      basic_content_validation call_result
  | _ => .error ()

/-- `Evaluator._validate_content_quality`: meaningfulness first, then the
expectation-driven or basic validation. -/
def validate_content_quality (call_result expected_result : JVal) :
    Except Unit (Bool × String) := do
  let m ← has_meaningful_content call_result
  if !m then pure (false, "Empty or meaningless result")
  else if pyTruthy expected_result then
    validate_against_expected call_result expected_result
  else
    basic_content_validation call_result

/-! ### `Evaluator.evaluate_case`

The collaborators of `evaluate_case` — the MCP transport and the LLM —
are modelled as an oracle `Env` giving the outcome of each external step
(`initialize`, `list_tools`, the LLM response, `call_tool`).  The registry
round-trip (clear, register, `to_openai_schema`) only shapes the prompt
given to the LLM, whose answer the oracle already fixes, and leaves the
evaluation record untouched, so it does not appear in the record-building
function.  The `try`/`except` of the source is embedded as
`Except (Record × String) Record`: `.error (r, msg)` is an exception
raised with the record mutated so far, which the handler turns into an
`"Evaluation error: ..."` message (the exception text is abbreviated to
the exception's name).  `timestamp` and `duration_ms` are taken as
parameters in place of the wall clock. -/

/-- A tool call extracted by `llm_client`: `name` is a string by the
OpenAI client's types, `arguments` is `json.loads` output. -/
structure ToolCall where
  name : String
  arguments : JVal

/-- The dict returned by `LLMClient.generate`: an optional `"error"` entry
and the `"tool_calls"` list. -/
structure LLMResponse where
  error : Option String
  tool_calls : List ToolCall

/-- Oracle for the external collaborators of one `evaluate_case` run. -/
structure Env where
  initOk : Bool
  listOk : Bool
  llm : LLMResponse
  callTool : String → JVal → Bool × JVal

/-- A test case after field extraction (`case.get(...)` with defaults). -/
structure Case where
  case_id : JVal
  prompt : JVal
  expected_tools : JVal
  expected_parameters : JVal
  expected_result : JVal

/-- The evaluation-result dict. -/
abbrev Record := List (String × JVal)

/-- The `result` dict as initialised at lines 50–66 of `evaluator.py`
(note: no `technical_success` and no `call_result` entry yet). -/
def initialRecord (c : Case) (ts : String) : Record :=
  [("case_id", c.case_id), ("prompt", c.prompt),
   ("expected_tools", c.expected_tools),
   ("expected_parameters", c.expected_parameters),
   ("expected_result", c.expected_result),
   ("chosen_tool", JVal.null), ("tool_args", JVal.null),
   ("selection_correct", .bool false), ("call_success", .bool false),
   ("parameter_correct", .bool false), ("content_quality_check", .bool false),
   ("error_message", JVal.null), ("content_quality_reason", JVal.null),
   ("timestamp", .str ts), ("duration_ms", .num 0)]

/-- The `try` block of `evaluate_case`. -/
def evaluate_case_body (c : Case) (env : Env) (r0 : Record) :
    Except (Record × String) Record :=
  if !env.initOk then
    .ok (setKey r0 "error_message" (.str "Failed to initialize MCP client"))
  else if !env.listOk then
    .ok (setKey r0 "error_message" (.str "Failed to list tools from MCP server"))
  else
    match env.llm.error with
    | some e => .ok (setKey r0 "error_message" (.str ("LLM error: " ++ e)))
    | none =>
      match env.llm.tool_calls with
      | [] =>
        .ok (setKey (setKey r0 "selection_correct" (.bool false))
              "call_success" (.bool false))
      | first_call :: _ =>
        let chosen_tool := first_call.name
        let tool_args := first_call.arguments
        let r1 := setKey (setKey r0 "chosen_tool" (.str chosen_tool))
                    "tool_args" tool_args
        match pyInStr chosen_tool c.expected_tools with
        | .error _ => .error (r1, "TypeError")
        | .ok sel =>
          let r2 := setKey r1 "selection_correct" (.bool sel)
          match validate_parameters tool_args c.expected_parameters with
          | .error _ => .error (r2, "TypeError")
          | .ok pc =>
            let r3 := setKey r2 "parameter_correct" (.bool pc)
            let call_success := (env.callTool chosen_tool tool_args).1
            let call_result := (env.callTool chosen_tool tool_args).2
            let r4 := setKey r3 "call_result" call_result
            match evaluate_technical_success call_success call_result with
            | .error _ => .error (r4, "AttributeError")
            | .ok technical_success =>
              match validate_content_quality call_result c.expected_result with
              | .error _ => .error (r4, "AttributeError")
              | .ok (content_quality_valid, content_reason) =>
                let r5 := setKey r4 "technical_success" (.bool technical_success)
                let r6 := setKey r5 "content_quality_check"
                            (.bool content_quality_valid)
                let r7 := setKey r6 "content_quality_reason" (.str content_reason)
                let r8 := setKey r7 "call_success"
                            (.bool (technical_success && content_quality_valid))
                if !technical_success then
                  if !call_success then
                    .ok (setKey r8 "error_message"
                      (.str ("Technical failure: Tool call failed: " ++
                             pyStr call_result)))
                  else
                    match call_result with
                    | .obj cr =>
                      (match getKeyD cr "structuredContent" (.obj []) with
                       | .obj scf =>
                         (match getKeyD scf "result" (.str "") with
                          | .str s =>
                            if pyStartsWith s "Error:" then
                              .ok (setKey r8 "error_message"
                                (.str ("Technical failure: " ++ s)))
                            else
                              .ok (setKey r8 "error_message"
                                (.str "Technical failure: Invalid response format"))
                          | _ =>
                            .ok (setKey r8 "error_message"
                              (.str "Technical failure: Invalid response format")))
                       | _ => .error (r8, "AttributeError"))
                    | _ =>
                      .ok (setKey r8 "error_message"
                        (.str "Technical failure: Invalid response format"))
                else if !content_quality_valid then
                  .ok (setKey r8 "error_message"
                    (.str ("Content quality failure: " ++ content_reason)))
                else .ok r8

/-- `Evaluator.evaluate_case`: run the `try` block, turn a raised
exception into an `"Evaluation error: ..."` message, and set the duration
in the `finally` block.  The returned record is exactly the record
appended to the JSONL log. -/
def evaluate_case (c : Case) (env : Env) (ts : String) (dur : Int) : Record :=
  let r :=
    match evaluate_case_body c env (initialRecord c ts) with
    | .ok r => r
    | .error (r, msg) =>
      setKey r "error_message" (.str ("Evaluation error: " ++ msg))
  setKey r "duration_ms" (.num dur)

/-! ### `src/agent/mcp_stdio.py` — request/response correlation

`_send_request` writes one JSON-RPC request with a freshly incremented id
and then reads stdout lines until a line parses to a response whose `id`
equals that id.  The stdout stream is modelled as a list of lines: a
blank line, a line that fails `json.loads`, or a parsed JSON value.
Reaching the end of the list models the 30-second timeout.  A parsed
line that is not an object makes `response.get("id")` raise
`AttributeError`, which the outer `except` turns into a structured
failure. -/

/-- One line read from the server's stdout. -/
inductive StreamLine where
  | blank
  | junk
  | val (v : JVal)

/-- Client state: the `started` flag (`self.process`), the monotonically
increasing `self.request_id`, and the pending stdout lines. -/
structure MCPState where
  started : Bool
  request_id : Nat
  stream : List StreamLine

/-- Outcome of the read loop of `_send_request` for a given request id. -/
inductive ReadOutcome where
  | matched (resp : List (String × JVal)) (rest : List StreamLine)
  | timeout
  | raised (rest : List StreamLine)

/-- `response.get("id") == self.request_id` (Python `==`, so a bool id
crosses with 0/1). -/
def idMatches (resp : List (String × JVal)) (rid : Nat) : Bool :=
  pyEqInt (getKeyD resp "id" JVal.null) (rid : Int)

/-- The read loop of `_send_request`: skip blank lines, lines that fail to
parse, and parsed objects with a non-matching id; accept the first object
whose id matches; raise on a parsed non-object; time out at end of
stream. -/
def findResponse (rid : Nat) : List StreamLine → ReadOutcome
  | [] => .timeout
  | .blank :: rest => findResponse rid rest
  | .junk :: rest => findResponse rid rest
  | .val v :: rest =>
    match v with
    | .obj resp =>
      if idMatches resp rid then .matched resp rest else findResponse rid rest
    | _ => .raised rest

/-- `MCPStdioClient._send_request`: guard on the started process,
increment the id, then run the read loop; a matched response carrying an
`"error"` entry is a structured failure, otherwise the `"result"` entry
(defaulting to `{}`) is returned. -/
def send_request (_method : String) (st : MCPState) :
    (Bool × JVal) × MCPState :=
  if !st.started then
    ((false, .obj [("error", .str "Server not started")]), st)
  else
    let rid := st.request_id + 1
    match findResponse rid st.stream with
    | .matched resp rest =>
      (match getKey resp "error" with
       | some e => ((false, e), { st with request_id := rid, stream := rest })
       | none =>
         ((true, getKeyD resp "result" (.obj [])),
          { st with request_id := rid, stream := rest }))
    | .timeout =>
      ((false, .obj [("error", .str "Timeout waiting for response")]),
       { st with request_id := rid, stream := [] })
    | .raised rest =>
      ((false, .obj [("error", .str "Request failed: AttributeError")]),
       { st with request_id := rid, stream := rest })

/-! ### `Evaluator.summarize`

The log is modelled after line splitting and `json.loads`: a list of the
parsed per-line values.  (`summarize` aborts with an error dict if a
non-blank line fails to parse, and likewise if a parsed line is not a
dict — `.get` on it raises, caught by the surrounding `except`; the
claim's "parseable records" are the dict lines.)  Ratios are computed in
`ℚ`, the exact value of Python's true division on these counts. -/

/-- The summary dict (numeric fields only; `detailed_results` echoes the
records). -/
structure Summary where
  total_cases : Nat
  selection_accuracy : ℚ
  call_success_rate : ℚ
  parameter_accuracy : ℚ
  correct_selections : Nat
  successful_calls : Nat
  correct_parameters : Nat
  detailed_results : List JVal

/-- `result.get(key, False)` truthiness for a parsed record. -/
def recordFlag (key : String) (v : JVal) : Bool :=
  match v with
  | .obj f => pyTruthy (getKeyD f key (.bool false))
  | _ => false

/-- The per-line loop of `summarize`: count records and truthy verdict
flags; a parsed non-dict line raises (`.get`), aborting with an error. -/
def summarizeCounts : List JVal → Except Unit (Nat × Nat × Nat × Nat)
  | [] => .ok (0, 0, 0, 0)
  | v :: rest =>
    match v with
    | .obj f => do
      let (n, ks, kc, kp) ← summarizeCounts rest
      pure (n + 1,
        ks + (if pyTruthy (getKeyD f "selection_correct" (.bool false)) then 1 else 0),
        kc + (if pyTruthy (getKeyD f "call_success" (.bool false)) then 1 else 0),
        kp + (if pyTruthy (getKeyD f "parameter_correct" (.bool false)) then 1 else 0))
    | _ => .error ()

/-- `Evaluator.summarize` on the parsed log lines: the counters and the
three ratios, each `0.0` when the log is empty. -/
def summarize (records : List JVal) : Except Unit Summary := do
  let (total_cases, correct_selections, successful_calls, correct_parameters) ←
    summarizeCounts records
  pure
    { total_cases := total_cases
      selection_accuracy :=
        if total_cases > 0 then (correct_selections : ℚ) / total_cases else 0
      call_success_rate :=
        if total_cases > 0 then (successful_calls : ℚ) / total_cases else 0
      parameter_accuracy :=
        if total_cases > 0 then (correct_parameters : ℚ) / total_cases else 0
      correct_selections := correct_selections
      successful_calls := successful_calls
      correct_parameters := correct_parameters
      detailed_results := records }

/-! ### Concrete instances used by witnesses and counterexamples -/

/-- The spec's own meaningful-content witness payload:
`{"structuredContent": {"result": "ok data"}}`. -/
def okDataPayload : JVal :=
  .obj [("structuredContent", .obj [("result", .str "ok data")])]

/-- The same payload with a parallel `content` text item, the shape MCP
servers actually produce. -/
def okDataPayloadWithContent : JVal :=
  .obj [("structuredContent", .obj [("result", .str "ok data")]),
        ("content", .arr [.obj [("type", .str "text"), ("text", .str "ok data")]])]

/-- A call result whose `structuredContent` is not a dict. -/
def nonDictSC : JVal := .obj [("structuredContent", .num 5)]

/-- A well-formed successful call result. -/
def goodResult : JVal :=
  .obj [("isError", .bool false),
        ("structuredContent",
         .obj [("result", .obj [("data", .arr [.obj [("title", .str "cat1")]])])])]

/-- The spec's round-trip input schema. -/
def roundTripSchema : List (String × JVal) :=
  [("properties", .obj [("x", .obj [("type", .str "string")])]),
   ("required", .arr [.str "x"])]

/-- A tool descriptor whose `"name"` is the number `5`. -/
def numNameTool : JVal := .obj [("name", .num 5)]

/-- Two descriptors sharing the name `search`; registering both must
leave the second one in the catalog. -/
def searchToolA : JVal :=
  .obj [("name", .str "search"), ("description", .str "first")]

/-- The later descriptor with the same name as `searchToolA`. -/
def searchToolB : JVal :=
  .obj [("name", .str "search"), ("description", .str "second")]

/-- A generic concrete case used to instantiate `evaluate_case`. -/
def caseSearch : Case :=
  ⟨.str "c1", .str "find cats", .arr [.str "search"],
   .obj [("query", .str "required")], .obj []⟩

/-- An environment whose transport fails to initialize. -/
def envInitFail : Env :=
  ⟨false, true, ⟨none, []⟩, fun _ _ => (true, .null)⟩

/-- An environment in which the model answers without any tool call. -/
def envNoToolCall : Env :=
  ⟨true, true, ⟨none, []⟩, fun _ _ => (true, .null)⟩

/-- An environment in which the model picks `search` and the tool call
succeeds with `goodResult`. -/
def envGoodCall : Env :=
  ⟨true, true, ⟨none, [⟨"search", .obj [("query", .str "cats")]⟩]⟩,
   fun _ _ => (true, goodResult)⟩

/-- A two-line stream: a foreign-id response, then the matching one. -/
def streamForeignThenMatch : List StreamLine :=
  [.junk, .val (.obj [("id", .num 99), ("result", .str "stale")]),
   .val (.obj [("id", .num 1), ("result", .obj [("tools", .arr [])])])]

/-- A started client at request id 0 holding `streamForeignThenMatch`. -/
def st0 : MCPState := ⟨true, 0, streamForeignThenMatch⟩

/-- Two concrete parsed log records, one selected correctly. -/
def logRecords : List JVal :=
  [.obj [("selection_correct", .bool true), ("call_success", .bool false),
         ("parameter_correct", .bool true)],
   .obj [("selection_correct", .bool false), ("call_success", .bool false),
         ("parameter_correct", .bool false)]]

/-- The classification invariant of an evaluation record: either the
call never reached the tool (no `call_result`, no `technical_success`,
`call_success` still false); or the call reached the tool but an
exception interrupted classification (a `call_result` but no
`technical_success`, `call_success` still false); or the record is fully
classified, and then `call_success` is exactly the conjunction of the
recorded `technical_success` and `content_quality_check` booleans. -/
def GoodRecord (r : Record) : Prop :=
  (getKey r "call_result" = none ∧
    getKey r "technical_success" = none ∧
    getKey r "call_success" = some (.bool false)) ∨
  (∃ cr, getKey r "call_result" = some cr ∧
    getKey r "technical_success" = none ∧
    getKey r "call_success" = some (.bool false)) ∨
  (∃ cr t q, getKey r "call_result" = some cr ∧
    getKey r "technical_success" = some (.bool t) ∧
    getKey r "content_quality_check" = some (.bool q) ∧
    getKey r "call_success" = some (.bool (t && q)))

/-- `GoodRecord` of the record carried by either outcome of the `try`
block. -/
def GoodExcept : Except (Record × String) Record → Prop
  | .ok r => GoodRecord r
  | .error (r, _) => GoodRecord r

/-- `selection_correct` is literally the boolean `true` in a parsed
record. -/
def selTrue : JVal → Bool
  | .obj f =>
    (match getKey f "selection_correct" with
     | some (.bool b) => b
     | _ => false)
  | _ => false

/-! ## Theorems -/

theorem getKey_setKey_self (d : Record) (k : String) (v : JVal) :
    getKey (setKey d k v) k = some v := by
  induction d with
  | nil => simp [setKey, getKey]
  | cons hd tl ih =>
    obtain ⟨k0, v0⟩ := hd
    by_cases h : k0 = k <;> simp [setKey, getKey, h, ih]

theorem getKey_setKey_ne (d : Record) (k k' : String) (v : JVal)
    (h : ¬k' = k) : getKey (setKey d k v) k' = getKey d k' := by
  induction d with
  | nil =>
    simp only [setKey, getKey]
    rw [if_neg (fun hh => h hh.symm)]
  | cons hd tl ih =>
    obtain ⟨k0, v0⟩ := hd
    by_cases h0 : k0 = k
    · subst h0
      simp only [setKey, if_pos rfl, getKey]
      rw [if_neg (fun hh => h hh.symm), if_neg (fun hh => h hh.symm)]
    · simp only [setKey, if_neg h0, getKey]
      by_cases h1 : k0 = k'
      · rw [if_pos h1, if_pos h1]
      · rw [if_neg h1, if_neg h1, ih]

/-- C1: the claim says `_has_meaningful_content` returns true for every
call result whose `structuredContent.result` is a string that survives
the emptiness/sentinel checks, in particular for
`{"structuredContent": {"result": "ok data"}}`.  The code disagrees: the
string branch has no `return True`, so control falls through to the
`content` inspection, which finds nothing here and returns false.  The
second conjunct shows the fall-through is what decides the outcome: the
same string payload with a parallel `content` text item returns true. -/
theorem C1_has_meaningful_content_string_falls_through :
    has_meaningful_content okDataPayload = .ok false ∧
    has_meaningful_content okDataPayloadWithContent = .ok true :=
  ⟨rfl, rfl⟩

/-- C2 counterexample: the claim says that with `call_success = true` the
classifier returns true in every case other than a non-dict result, a
truthy `isError`, or an `"Error:"`-prefixed structured result string.
`{"structuredContent": 5}` is such an "every other" case, yet the code
raises `AttributeError` (`structured_content.get` on an int) instead of
returning true. -/
theorem C2_technical_success_raises_on_nondict_structured :
    evaluate_technical_success true nonDictSC ≠ Except.ok true := by
  intro h
  have h2 : (Except.error () : Except Unit Bool) = Except.ok true := h
  exact Except.noConfusion h2

/-- C2 (amended): `_evaluate_technical_success` is false whenever the
transport reported failure, regardless of payload; with a successful
transport it is false on a non-dict result, a truthy `isError` flag, or an
`"Error:"`-prefixed structured result string, and true in every other
case in which `structuredContent` (when present) is a dict — when
`structuredContent` is present but not a dict (and `isError` is falsy),
the function raises `AttributeError` instead of returning. -/
theorem C2_technical_success_characterisation (b : Bool) (v : JVal) :
    (b = false → evaluate_technical_success b v = .ok false) ∧
    ((∀ f, v ≠ JVal.obj f) → evaluate_technical_success true v = .ok false) ∧
    (∀ f, v = JVal.obj f →
      pyTruthy (getKeyD f "isError" (.bool false)) = true →
      evaluate_technical_success true v = .ok false) ∧
    (∀ f scf, v = JVal.obj f →
      pyTruthy (getKeyD f "isError" (.bool false)) = false →
      getKeyD f "structuredContent" (.obj []) = JVal.obj scf →
      ((∀ s, getKeyD scf "result" (.str "") = JVal.str s →
          pyStartsWith s "Error:" = false) →
        evaluate_technical_success true v = .ok true) ∧
      (∀ s, getKeyD scf "result" (.str "") = JVal.str s →
        pyStartsWith s "Error:" = true →
        evaluate_technical_success true v = .ok false)) ∧
    (∀ f, v = JVal.obj f →
      pyTruthy (getKeyD f "isError" (.bool false)) = false →
      (∀ scf, getKeyD f "structuredContent" (.obj []) ≠ JVal.obj scf) →
      evaluate_technical_success true v = .error ()) := by
  refine ⟨?_, ?_, ?_, ?_, ?_⟩
  · intro hb
    subst hb
    simp [evaluate_technical_success]
  · intro hno
    cases v with
    | obj f => exact absurd rfl (hno f)
    | null => rfl
    | bool b' => rfl
    | num n => rfl
    | str s => rfl
    | arr xs => rfl
  · intro f hv hT
    subst hv
    simp [evaluate_technical_success, hT]
  · intro f scf hv hF hsc
    subst hv
    constructor
    · intro hne
      simp only [evaluate_technical_success, Bool.not_true, Bool.false_eq_true,
        if_false, hF, hsc]
      cases hres : getKeyD scf "result" (.str "") with
      | str s => simp [hne s hres]
      | null => rfl
      | bool b' => rfl
      | num n => rfl
      | arr xs => rfl
      | obj g => rfl
    · intro s hres hstart
      simp [evaluate_technical_success, hF, hsc, hres, hstart]
  · intro f hv hF hnd
    subst hv
    cases hsc : getKeyD f "structuredContent" (.obj []) with
    | obj scf => exact absurd hsc (hnd scf)
    | null => simp [evaluate_technical_success, hF, hsc]
    | bool b' => simp [evaluate_technical_success, hF, hsc]
    | num n => simp [evaluate_technical_success, hF, hsc]
    | str s => simp [evaluate_technical_success, hF, hsc]
    | arr xs => simp [evaluate_technical_success, hF, hsc]

/-- C2 witness: the amended characterisation applied to a concrete
payload whose structured result is a plain success string. -/
theorem C2_technical_success_witness :
    evaluate_technical_success true
      (.obj [("structuredContent", .obj [("result", .str "All good")])]) =
      .ok true :=
  ((C2_technical_success_characterisation true _).2.2.2.1
      [("structuredContent", .obj [("result", .str "All good")])]
      [("result", .str "All good")] rfl rfl rfl).1
    (fun s hs => by cases hs; rfl)

theorem pyEqStr_iff (v : JVal) (s : String) : pyEqStr v s = true ↔ v = .str s := by
  cases v <;> simp [pyEqStr]

theorem checkRequired_cons_required_none (actual : List (String × JVal))
    (k : String) (tl : List (String × JVal)) (hget : getKey actual k = none) :
    checkRequired (.obj actual) ((k, .str "required") :: tl) = .ok false := by
  simp [checkRequired, pyEqStr, pyInStr, hasKey, hget, Bind.bind, Except.bind,
    pure, Except.pure]

theorem checkRequired_cons_required_some (actual : List (String × JVal))
    (k : String) (w : JVal) (tl : List (String × JVal))
    (hget : getKey actual k = some w) :
    checkRequired (.obj actual) ((k, .str "required") :: tl) =
      if isNone w || isBlankStr w then .ok false
      else checkRequired (.obj actual) tl := by
  by_cases hbad : (isNone w || isBlankStr w) = true <;>
    simp [checkRequired, pyEqStr, pyInStr, pyIndexStr, hasKey, hget, hbad,
      Bind.bind, Except.bind, pure, Except.pure]

theorem checkRequired_cons_other (actual : List (String × JVal)) (k : String)
    (req : JVal) (tl : List (String × JVal))
    (h : pyEqStr req "required" = false) :
    checkRequired (.obj actual) ((k, req) :: tl) =
      checkRequired (.obj actual) tl := by
  simp [checkRequired, h]

theorem isNone_iff (w : JVal) : isNone w = true ↔ w = JVal.null := by
  cases w <;> simp [isNone]

theorem isBlankStr_iff (w : JVal) :
    isBlankStr w = true ↔ ∃ s, w = JVal.str s ∧ pyStrip s = "" := by
  cases w <;> simp [isBlankStr]

theorem checkRequired_obj_iff (actual kvs : List (String × JVal)) :
    checkRequired (.obj actual) kvs = .ok true ↔
      ∀ p ∈ kvs, p.2 = JVal.str "required" →
        ∃ w, getKey actual p.1 = some w ∧ w ≠ JVal.null ∧
          (∀ s, w = JVal.str s → pyStrip s ≠ "") := by
  induction kvs with
  | nil => simp [checkRequired]
  | cons hd tl ih =>
    obtain ⟨k, req⟩ := hd
    by_cases hreq : pyEqStr req "required" = true
    · have hreq' : req = .str "required" := (pyEqStr_iff _ _).1 hreq
      subst hreq'
      cases hget : getKey actual k with
      | none =>
        rw [checkRequired_cons_required_none actual k tl hget]
        constructor
        · intro h
          simp at h
        · intro hall
          obtain ⟨w, hw, -, -⟩ := hall (k, .str "required") (by simp) rfl
          rw [hget] at hw
          exact Option.noConfusion hw
      | some w =>
        rw [checkRequired_cons_required_some actual k w tl hget]
        by_cases hbad : (isNone w || isBlankStr w) = true
        · rw [if_pos hbad]
          constructor
          · intro h
            simp at h
          · intro hall
            obtain ⟨w', hw', hnull, hblank⟩ :=
              hall (k, .str "required") (by simp) rfl
            rw [hget] at hw'
            injection hw' with hww
            subst hww
            rcases Bool.or_eq_true_iff.1 hbad with hb | hb
            · exact absurd ((isNone_iff _).1 hb) hnull
            · obtain ⟨s, hs, hstrip⟩ := (isBlankStr_iff _).1 hb
              exact absurd hstrip (hblank s hs)
        · rw [if_neg hbad, ih]
          simp only [Bool.or_eq_true, not_or, Bool.not_eq_true] at hbad
          constructor
          · intro h p hp hreq2
            rcases List.mem_cons.1 hp with hp1 | hp2
            · have hk : p.1 = k := by rw [hp1]
              rw [hk, hget]
              refine ⟨w, rfl, ?_, ?_⟩
              · intro he
                subst he
                simp [isNone] at hbad
              · intro s hs hstrip
                subst hs
                rw [isBlankStr, hstrip] at hbad
                simp at hbad
            · exact h p hp2 hreq2
          · intro h p hp hreq2
            exact h p (List.mem_cons_of_mem _ hp) hreq2
    · rw [checkRequired_cons_other actual k req tl (Bool.not_eq_true _ ▸ hreq), ih]
      constructor
      · intro h p hp hreq2
        rcases List.mem_cons.1 hp with hp1 | hp2
        · exfalso
          apply hreq
          rw [pyEqStr_iff]
          have : p.2 = req := by rw [hp1]
          rw [← this, hreq2]
        · exact h p hp2 hreq2
      · intro h p hp hreq2
        exact h p (List.mem_cons_of_mem _ hp) hreq2

/-- C5: `_validate_parameters(actual, expected)` returns true iff every
parameter name mapped to `"required"` in `expected` is a key of `actual`
whose value is neither `None` nor a string blank after stripping; in
particular it fails on `{"q": ""}`, succeeds on `{"q": "x"}`, and is
always true when `expected` is empty. -/
theorem C5_validate_parameters (actual expected : List (String × JVal)) :
    (validate_parameters (.obj actual) (.obj expected) = .ok true ↔
      ∀ p ∈ expected, p.2 = JVal.str "required" →
        ∃ w, getKey actual p.1 = some w ∧ w ≠ JVal.null ∧
          (∀ s, w = JVal.str s → pyStrip s ≠ "")) ∧
    validate_parameters (.obj [("q", .str "")])
      (.obj [("q", .str "required")]) = .ok false ∧
    validate_parameters (.obj [("q", .str "x")])
      (.obj [("q", .str "required")]) = .ok true ∧
    validate_parameters (.obj actual) (.obj []) = .ok true := by
  refine ⟨?_, rfl, rfl, rfl⟩
  cases expected with
  | nil => simp [validate_parameters, pyTruthy]
  | cons hd tl =>
    rw [show validate_parameters (.obj actual) (.obj (hd :: tl)) =
        checkRequired (.obj actual) (hd :: tl) from by
      simp [validate_parameters, pyTruthy]]
    exact checkRequired_obj_iff actual (hd :: tl)

/-- C5 witness: the characterisation instantiated on concrete arguments
`{"q": "cats"}` against expectation `{"q": "required"}`. -/
theorem C5_validate_parameters_witness :
    validate_parameters (.obj [("q", .str "cats")])
      (.obj [("q", .str "required")]) = .ok true := by
  refine ((C5_validate_parameters [("q", .str "cats")]
      [("q", .str "required")]).1).2 ?_
  intro p hp hreq
  have hp1 : p = ("q", JVal.str "required") := by simpa using hp
  subst hp1
  refine ⟨.str "cats", rfl, fun h => JVal.noConfusion h, ?_⟩
  intro s hs
  cases hs
  intro h
  exact String.noConfusion h (fun h2 => List.noConfusion h2)

theorem convert_cond_false (s : List (String × JVal))
    (h : getKey s "type" ≠ some (.str "object")) :
    (hasKey s "type" && pyEqStr (getKeyD s "type" JVal.null) "object") = false := by
  cases hget : getKey s "type" with
  | none => simp [hasKey, hget]
  | some v =>
    have hv : pyEqStr v "object" = false := by
      cases hv : pyEqStr v "object"
      · rfl
      · exact absurd ((pyEqStr_iff _ _).1 hv ▸ hget) h
    simp [hasKey, hget, getKeyD, hv]

/-- C6: `_convert_input_schema` passes a schema already declaring
`type: object` through unchanged; wraps a schema that has `properties`
but no declared object type into `{type: object, properties,
required(default [])}` — the spec's round-trip descriptor maps to an
object schema with the same properties and required; defaults to the
empty object schema when the schema is empty or has neither; and on
every input produces a schema declaring `type: object`, without any
failure mode. -/
theorem C6_convert_input_schema (s : List (String × JVal)) :
    (getKey s "type" = some (.str "object") → convert_input_schema s = s) ∧
    (getKey s "type" ≠ some (.str "object") →
      ∀ props, getKey s "properties" = some props →
        convert_input_schema s =
          [("type", .str "object"), ("properties", props),
           ("required", getKeyD s "required" (.arr []))]) ∧
    (getKey s "type" ≠ some (.str "object") → getKey s "properties" = none →
      convert_input_schema s =
        [("type", .str "object"), ("properties", .obj []),
         ("required", .arr [])]) ∧
    getKey (convert_input_schema s) "type" = some (.str "object") ∧
    convert_input_schema roundTripSchema =
      [("type", .str "object"),
       ("properties", .obj [("x", .obj [("type", .str "string")])]),
       ("required", .arr [.str "x"])] := by
  refine ⟨?_, ?_, ?_, ?_, rfl⟩
  · intro h
    simp [convert_input_schema, hasKey, h, getKeyD, pyEqStr]
  · intro h props hp
    have hc := convert_cond_false s h
    have hie : s.isEmpty = false := by
      cases s with
      | nil => simp [getKey] at hp
      | cons a l => rfl
    simp only [convert_input_schema]
    rw [if_neg (by rw [hc]; exact Bool.false_ne_true),
      if_neg (by rw [hie]; exact Bool.false_ne_true),
      if_pos (show hasKey s "properties" = true by simp [hasKey, hp])]
    simp [getKeyD, hp]
  · intro h hp
    have hc := convert_cond_false s h
    simp only [convert_input_schema]
    rw [if_neg (by rw [hc]; exact Bool.false_ne_true)]
    by_cases hie : s.isEmpty = true
    · rw [if_pos hie]
    · rw [if_neg hie, if_neg (by simp [hasKey, hp])]
  · by_cases hcond :
        (hasKey s "type" && pyEqStr (getKeyD s "type" JVal.null) "object") = true
    · obtain ⟨h1, h2⟩ := Bool.and_eq_true_iff.1 hcond
      obtain ⟨v, hv⟩ := Option.isSome_iff_exists.1 h1
      have hveq : v = .str "object" := by
        rw [getKeyD, hv] at h2
        exact (pyEqStr_iff _ _).1 h2
      simp [convert_input_schema, hcond, hv, hveq]
    · simp only [convert_input_schema]
      rw [if_neg (by simpa using hcond)]
      split
      · rfl
      · split
        · rfl
        · rfl

/-- C6 witness: the wrap branch applied to the concrete round-trip
descriptor. -/
theorem C6_convert_input_schema_witness :
    convert_input_schema roundTripSchema =
      [("type", .str "object"),
       ("properties", .obj [("x", .obj [("type", .str "string")])]),
       ("required", .arr [.str "x"])] :=
  (C6_convert_input_schema roundTripSchema).2.1
    (fun h => Option.noConfusion h) _ rfl

theorem setCatKey_keys (cat : Catalog) (k v k' : JVal)
    (h : k' ∈ (setCatKey cat k v).map Prod.fst) :
    k' ∈ cat.map Prod.fst ∨ k' = k := by
  induction cat with
  | nil =>
    simp [setCatKey] at h
    exact Or.inr h
  | cons hd tl ih =>
    obtain ⟨k0, v0⟩ := hd
    by_cases h0 : pyEqKey k0 k = true
    · simp only [setCatKey, h0, if_true, List.map_cons, List.mem_cons] at h
      exact Or.inl (List.mem_cons.2 h)
    · simp only [setCatKey, h0, Bool.false_eq_true, if_false, List.map_cons,
        List.mem_cons] at h
      rcases h with h | h
      · exact Or.inl (List.mem_cons.2 (Or.inl h))
      · rcases ih h with h2 | h2
        · exact Or.inl (List.mem_cons.2 (Or.inr h2))
        · exact Or.inr h2

theorem register_tools_keys_sub (tools : List JVal) :
    ∀ cat cat', register_tools tools cat = .ok cat' →
      ∀ k, k ∈ cat'.map Prod.fst →
        k ∈ cat.map Prod.fst ∨
          ∃ f, JVal.obj f ∈ tools ∧ getKeyD f "name" (.str "") = k ∧
            pyTruthy k = true := by
  induction tools with
  | nil =>
    intro cat cat' h k hk
    injection h with h
    subst h
    exact Or.inl hk
  | cons t rest ih =>
    intro cat cat' h k hk
    cases t with
    | obj f =>
      by_cases hname : pyTruthy (getKeyD f "name" (.str "")) = true
      · by_cases hhash : hashableKey (getKeyD f "name" (.str "")) = true
        · have h' : register_tools rest
              (setCatKey cat (getKeyD f "name" (.str "")) (JVal.obj f)) =
              .ok cat' := by
            simpa [register_tools, hname, hhash] using h
          rcases ih _ _ h' k hk with hk' | ⟨g, hg, hgn, hgt⟩
          · rcases setCatKey_keys _ _ _ _ hk' with h2 | h2
            · exact Or.inl h2
            · subst h2
              exact Or.inr ⟨f, List.mem_cons_self _ _, rfl, hname⟩
          · exact Or.inr ⟨g, List.mem_cons_of_mem _ hg, hgn, hgt⟩
        · simp [register_tools, hname, hhash] at h
      · have h' : register_tools rest cat = .ok cat' := by
          simpa [register_tools, hname] using h
        rcases ih _ _ h' k hk with hk' | ⟨g, hg, hgn, hgt⟩
        · exact Or.inl hk'
        · exact Or.inr ⟨g, List.mem_cons_of_mem _ hg, hgn, hgt⟩
    | null => simp [register_tools] at h
    | bool b => simp [register_tools] at h
    | num n => simp [register_tools] at h
    | str s2 => simp [register_tools] at h
    | arr xs => simp [register_tools] at h

theorem register_tools_all_falsy (tools : List JVal) :
    ∀ cat, (∀ t ∈ tools, ∃ f, t = JVal.obj f ∧
        pyTruthy (getKeyD f "name" (.str "")) = false) →
      register_tools tools cat = .ok cat := by
  induction tools with
  | nil =>
    intro cat _
    rfl
  | cons t rest ih =>
    intro cat hall
    obtain ⟨f, ht, hf⟩ := hall t (List.mem_cons_self _ _)
    subst ht
    rw [show register_tools (JVal.obj f :: rest) cat = register_tools rest cat
      from by simp [register_tools, hf]]
    exact ih cat (fun t2 ht2 => hall t2 (List.mem_cons_of_mem _ ht2))

theorem register_tools_string_keys (tools : List JVal) :
    ∀ cat cat', register_tools tools cat = .ok cat' →
      (∀ k, k ∈ cat.map Prod.fst → ∃ s, k = JVal.str s ∧ s ≠ "") →
      (∀ f, JVal.obj f ∈ tools →
        pyTruthy (getKeyD f "name" (.str "")) = true →
        ∃ s, getKeyD f "name" (.str "") = JVal.str s) →
      ∀ k, k ∈ cat'.map Prod.fst → ∃ s, k = JVal.str s ∧ s ≠ "" := by
  intro cat cat' h hcat htools k hk
  rcases register_tools_keys_sub tools cat cat' h k hk with h1 | ⟨f, hf, hfn, hft⟩
  · exact hcat k h1
  · obtain ⟨s, hs⟩ := htools f hf (by rw [hfn]; exact hft)
    rw [hfn] at hs
    refine ⟨s, hs, ?_⟩
    intro he
    subst he
    rw [hs] at hft
    exact absurd hft (by decide)

theorem pyEqKey_symm (a b : JVal) (h : pyEqKey a b = true) :
    pyEqKey b a = true := by
  cases a <;> cases b <;> simp_all [pyEqKey]

theorem pyEqKey_trans (a b c : JVal) (h1 : pyEqKey a b = true)
    (h2 : pyEqKey b c = true) : pyEqKey a c = true := by
  cases a <;> cases b <;> cases c <;>
    simp only [pyEqKey, beq_iff_eq] at h1 h2 ⊢ <;>
    first
    | rfl
    | exact Bool.noConfusion h1
    | exact Bool.noConfusion h2
    | exact h1.trans h2
    | exact h1 ▸ h2
    | exact h2 ▸ h1
    | (rename_i x n y
       cases x <;> cases y <;> simp_all)

theorem pyEqKey_refl_hashable (m : JVal) (h : hashableKey m = true) :
    pyEqKey m m = true := by
  cases m <;> simp_all [hashableKey, pyEqKey]

theorem getCatKey_setCatKey (cat : Catalog) (m v n : JVal) :
    getCatKey (setCatKey cat m v) n =
      if pyEqKey m n then some v else getCatKey cat n := by
  induction cat with
  | nil => simp [setCatKey, getCatKey]
  | cons hd tl ih =>
    obtain ⟨k0, v0⟩ := hd
    by_cases h1 : pyEqKey k0 m = true
    · simp only [setCatKey, h1, if_true, getCatKey]
      by_cases h2 : pyEqKey m n = true
      · rw [if_pos (pyEqKey_trans k0 m n h1 h2), if_pos h2]
      · have h3 : ¬pyEqKey k0 n = true := fun h3 =>
          h2 (pyEqKey_trans m k0 n (pyEqKey_symm k0 m h1) h3)
        rw [if_neg h3, if_neg h2, if_neg h3]
    · simp only [setCatKey, h1, Bool.false_eq_true, if_false, getCatKey, ih]
      by_cases h2 : pyEqKey k0 n = true
      · have h3 : ¬pyEqKey m n = true := fun h3 =>
          h1 (pyEqKey_trans k0 n m h2 (pyEqKey_symm m n h3))
        rw [if_pos h2, if_neg h3, if_pos h2]
      · rw [if_neg h2]
        by_cases h3 : pyEqKey m n = true
        · rw [if_pos h3, if_pos h3]
        · rw [if_neg h3, if_neg h3, if_neg h2]

theorem register_tools_ok_hashable (tools : List JVal) :
    ∀ cat cat', register_tools tools cat = .ok cat' →
      ∀ f, JVal.obj f ∈ tools →
        pyTruthy (getKeyD f "name" (.str "")) = true →
        hashableKey (getKeyD f "name" (.str "")) = true := by
  induction tools with
  | nil =>
    intro cat cat' h f hf
    simp at hf
  | cons t rest ih =>
    intro cat cat' h f hf htruthy
    cases t with
    | obj g =>
      by_cases hname : pyTruthy (getKeyD g "name" (.str "")) = true
      · by_cases hhash : hashableKey (getKeyD g "name" (.str "")) = true
        · have h' : register_tools rest
              (setCatKey cat (getKeyD g "name" (.str "")) (JVal.obj g)) =
              .ok cat' := by
            simpa [register_tools, hname, hhash] using h
          rcases List.mem_cons.1 hf with h1 | h1
          · injection h1 with hfg
            subst hfg
            exact hhash
          · exact ih _ _ h' f h1 htruthy
        · simp [register_tools, hname, hhash] at h
      · have h' : register_tools rest cat = .ok cat' := by
          simpa [register_tools, hname] using h
        rcases List.mem_cons.1 hf with h1 | h1
        · injection h1 with hfg
          subst hfg
          exact absurd htruthy hname
        · exact ih _ _ h' f h1 htruthy
    | null => simp [register_tools] at h
    | bool b => simp [register_tools] at h
    | num n => simp [register_tools] at h
    | str s2 => simp [register_tools] at h
    | arr xs => simp [register_tools] at h

theorem lastTruthyNamed_mem (tools : List JVal) (f : List (String × JVal))
    (hf : JVal.obj f ∈ tools)
    (ht : pyTruthy (getKeyD f "name" (.str "")) = true)
    (hrefl : pyEqKey (getKeyD f "name" (.str ""))
      (getKeyD f "name" (.str "")) = true) :
    ∃ u, lastTruthyNamed (getKeyD f "name" (.str "")) tools = some u := by
  induction tools with
  | nil => simp at hf
  | cons t rest ih =>
    rcases List.mem_cons.1 hf with h1 | h1
    · cases hlast : lastTruthyNamed (getKeyD f "name" (.str "")) rest with
      | some u => exact ⟨u, by simp [lastTruthyNamed, hlast]⟩
      | none =>
        subst h1
        exact ⟨JVal.obj f, by simp [lastTruthyNamed, hlast, ht, hrefl]⟩
    · obtain ⟨u, hu⟩ := ih h1
      exact ⟨u, by simp [lastTruthyNamed, hu]⟩

theorem register_tools_getCatKey (tools : List JVal) :
    ∀ cat cat', register_tools tools cat = .ok cat' → ∀ n,
      getCatKey cat' n =
        (match lastTruthyNamed n tools with
         | some t => some t
         | none => getCatKey cat n) := by
  induction tools with
  | nil =>
    intro cat cat' h n
    injection h with h
    subst h
    rfl
  | cons t rest ih =>
    intro cat cat' h n
    cases t with
    | obj f =>
      by_cases hname : pyTruthy (getKeyD f "name" (.str "")) = true
      · by_cases hhash : hashableKey (getKeyD f "name" (.str "")) = true
        · have h' : register_tools rest
              (setCatKey cat (getKeyD f "name" (.str "")) (JVal.obj f)) =
              .ok cat' := by
            simpa [register_tools, hname, hhash] using h
          have hih := ih _ _ h' n
          cases hlast : lastTruthyNamed n rest with
          | some u =>
            rw [hih, hlast]
            simp [lastTruthyNamed, hlast]
          | none =>
            rw [hih, hlast]
            simp only [getCatKey_setCatKey]
            simp only [lastTruthyNamed, hlast, hname, Bool.true_and]
            by_cases hpe : pyEqKey (getKeyD f "name" (.str "")) n = true
            · rw [if_pos hpe]
              simp [hpe]
            · rw [if_neg hpe]
              simp [hpe]
        · simp [register_tools, hname, hhash] at h
      · have h' : register_tools rest cat = .ok cat' := by
          simpa [register_tools, hname] using h
        have hih := ih _ _ h' n
        rw [hih]
        cases hlast : lastTruthyNamed n rest with
        | some u => simp [lastTruthyNamed, hlast]
        | none =>
          rw [Bool.not_eq_true] at hname
          simp [lastTruthyNamed, hlast, hname]
    | null => simp [register_tools] at h
    | bool b => simp [register_tools] at h
    | num n2 => simp [register_tools] at h
    | str s2 => simp [register_tools] at h
    | arr xs => simp [register_tools] at h

theorem register_tools_last_write (tools : List JVal) (cat cat' : Catalog)
    (h : register_tools tools cat = .ok cat') (n t : JVal)
    (hl : lastTruthyNamed n tools = some t) : getCatKey cat' n = some t := by
  rw [register_tools_getCatKey tools cat cat' h n, hl]

theorem register_tools_untouched (tools : List JVal) (cat cat' : Catalog)
    (h : register_tools tools cat = .ok cat') (n : JVal)
    (hl : lastTruthyNamed n tools = none) :
    getCatKey cat' n = getCatKey cat n := by
  rw [register_tools_getCatKey tools cat cat' h n, hl]

theorem register_tools_presence (tools : List JVal) (cat cat' : Catalog)
    (h : register_tools tools cat = .ok cat') (f : List (String × JVal))
    (hf : JVal.obj f ∈ tools)
    (ht : pyTruthy (getKeyD f "name" (.str "")) = true) :
    ∃ v, getCatKey cat' (getKeyD f "name" (.str "")) = some v := by
  have hh := register_tools_ok_hashable tools cat cat' h f hf ht
  obtain ⟨u, hu⟩ :=
    lastTruthyNamed_mem tools f hf ht (pyEqKey_refl_hashable _ hh)
  exact ⟨u, register_tools_last_write tools cat cat' h _ u hu⟩

/-- C10 counterexample: the claim says every registered key is a
non-empty string and that only descriptors with a non-empty string name
are added.  But `if name:` is a truthiness test: a descriptor whose
`"name"` is the number `5` is registered under the non-string key `5`. -/
theorem C10_nonstring_key_counterexample :
    register_tools [numNameTool] [] = .ok [(JVal.num 5, numNameTool)] ∧
    ∀ s, JVal.num 5 ≠ JVal.str s :=
  ⟨rfl, fun _ h => JVal.noConfusion h⟩

/-- C10 (amended): `register_tools` adds entries exactly for descriptors
whose `name` value is truthy (Python truthiness), keyed by that value,
with a later descriptor of an equal name overwriting an earlier entry:
no key appears that is not an old key or a truthy descriptor name
(conjunct 1); a run over only falsy-or-missing-named descriptors leaves
the catalog unchanged (conjunct 2); looking any key up after a
successful run yields the last descriptor in the list whose truthy name
Python-equals that key (conjunct 3), is unchanged for keys no
descriptor targets (conjunct 4), and succeeds for every truthy-named
descriptor that was registered (conjunct 5).  Consequently, when the
existing keys are non-empty strings and every truthy name being
registered is a string, every key in the catalog is a non-empty string
(conjunct 6); `clear` empties the catalog (conjunct 7). -/
theorem C10_register_tools_amended :
    (∀ tools cat cat', register_tools tools cat = .ok cat' →
      ∀ k, k ∈ cat'.map Prod.fst →
        k ∈ cat.map Prod.fst ∨
          ∃ f, JVal.obj f ∈ tools ∧ getKeyD f "name" (.str "") = k ∧
            pyTruthy k = true) ∧
    (∀ tools cat,
      (∀ t ∈ tools, ∃ f, t = JVal.obj f ∧
        pyTruthy (getKeyD f "name" (.str "")) = false) →
      register_tools tools cat = .ok cat) ∧
    (∀ tools cat cat', register_tools tools cat = .ok cat' →
      ∀ n t, lastTruthyNamed n tools = some t → getCatKey cat' n = some t) ∧
    (∀ tools cat cat', register_tools tools cat = .ok cat' →
      ∀ n, lastTruthyNamed n tools = none →
        getCatKey cat' n = getCatKey cat n) ∧
    (∀ tools cat cat', register_tools tools cat = .ok cat' →
      ∀ f, JVal.obj f ∈ tools →
        pyTruthy (getKeyD f "name" (.str "")) = true →
        ∃ v, getCatKey cat' (getKeyD f "name" (.str "")) = some v) ∧
    (∀ tools cat cat', register_tools tools cat = .ok cat' →
      (∀ k, k ∈ cat.map Prod.fst → ∃ s, k = JVal.str s ∧ s ≠ "") →
      (∀ f, JVal.obj f ∈ tools →
        pyTruthy (getKeyD f "name" (.str "")) = true →
        ∃ s, getKeyD f "name" (.str "") = JVal.str s) →
      ∀ k, k ∈ cat'.map Prod.fst → ∃ s, k = JVal.str s ∧ s ≠ "") ∧
    (∀ cat, clearCatalog cat = []) :=
  ⟨register_tools_keys_sub, register_tools_all_falsy,
   register_tools_last_write, register_tools_untouched,
   register_tools_presence, register_tools_string_keys, fun _ => rfl⟩

/-- C10 witness: the last-write-wins part applied concretely — after
registering two descriptors both named `search`, the catalog holds the
second one under that name. -/
theorem C10_register_tools_witness :
    getCatKey [(JVal.str "search", searchToolB)] (.str "search") =
      some searchToolB :=
  C10_register_tools_amended.2.2.1 [searchToolA, searchToolB] []
    [(JVal.str "search", searchToolB)] rfl (.str "search") searchToolB rfl

theorem findResponse_matched_id (rid : Nat) (lines : List StreamLine) :
    ∀ resp rest, findResponse rid lines = .matched resp rest →
      idMatches resp rid = true := by
  induction lines with
  | nil =>
    intro resp rest h
    exact ReadOutcome.noConfusion h
  | cons l rest0 ih =>
    intro resp rest h
    cases l with
    | blank => exact ih resp rest h
    | junk => exact ih resp rest h
    | val v =>
      cases v with
      | obj resp0 =>
        by_cases hid : idMatches resp0 rid = true
        · rw [show findResponse rid (StreamLine.val (JVal.obj resp0) :: rest0) =
              .matched resp0 rest0 from by simp [findResponse, hid]] at h
          injection h with h1 h2
          subst h1
          exact hid
        · rw [show findResponse rid (StreamLine.val (JVal.obj resp0) :: rest0) =
              findResponse rid rest0 from by simp [findResponse, hid]] at h
          exact ih resp rest h
      | null => simp [findResponse] at h
      | bool b => simp [findResponse] at h
      | num n => simp [findResponse] at h
      | str s2 => simp [findResponse] at h
      | arr xs => simp [findResponse] at h

theorem send_request_started (st : MCPState) (m : String)
    (hst : st.started = true) :
    send_request m st =
      match findResponse (st.request_id + 1) st.stream with
      | .matched resp rest =>
        (match getKey resp "error" with
         | some e =>
           ((false, e),
            { st with request_id := st.request_id + 1, stream := rest })
         | none =>
           ((true, getKeyD resp "result" (.obj [])),
            { st with request_id := st.request_id + 1, stream := rest }))
      | .timeout =>
        ((false, .obj [("error", .str "Timeout waiting for response")]),
         { st with request_id := st.request_id + 1, stream := [] })
      | .raised rest =>
        ((false, .obj [("error", .str "Request failed: AttributeError")]),
         { st with request_id := st.request_id + 1, stream := rest }) := by
  simp [send_request, hst]

theorem send_request_next_id (st : MCPState) (m : String)
    (hst : st.started = true) :
    ((send_request m st).2).request_id = st.request_id + 1 ∧
    ((send_request m st).2).started = st.started := by
  rw [send_request_started st m hst]
  split
  · split
    · exact ⟨rfl, rfl⟩
    · exact ⟨rfl, rfl⟩
  · exact ⟨rfl, rfl⟩
  · exact ⟨rfl, rfl⟩

/-- C3: every response accepted by `_send_request`'s read loop has an
`id` field Python-equal to the id assigned to that request; a
transport-level success hands back that accepted response's `result`;
blank lines, lines that fail to parse as JSON, and parsed objects with a
foreign id are skipped without aborting the read; and after one request
completes, the next request (one id higher) correlates the same way, so
skipped lines do not corrupt the next call. -/
theorem C3_send_request_correlation :
    (∀ rid lines resp rest, findResponse rid lines = .matched resp rest →
      idMatches resp rid = true) ∧
    (∀ st payload st', st.started = true →
      send_request "tools/list" st = ((true, payload), st') →
      ∃ resp rest,
        findResponse (st.request_id + 1) st.stream = .matched resp rest ∧
        idMatches resp (st.request_id + 1) = true ∧
        getKey resp "error" = none ∧
        payload = getKeyD resp "result" (.obj []) ∧
        st'.request_id = st.request_id + 1 ∧ st'.stream = rest) ∧
    (∀ rid rest, findResponse rid (.blank :: rest) = findResponse rid rest) ∧
    (∀ rid rest, findResponse rid (.junk :: rest) = findResponse rid rest) ∧
    (∀ rid resp rest, idMatches resp rid = false →
      findResponse rid (.val (.obj resp) :: rest) = findResponse rid rest) ∧
    (∀ st r₁ st₁ resp rest, st.started = true →
      send_request "tools/list" st = (r₁, st₁) →
      findResponse (st₁.request_id + 1) st₁.stream = .matched resp rest →
      idMatches resp (st.request_id + 2) = true) := by
  refine ⟨findResponse_matched_id, ?_, ?_, ?_, ?_, ?_⟩
  · intro st payload st' hst h
    rw [send_request_started st _ hst] at h
    split at h
    next resp rest hfr =>
      split at h
      next e hgk => simp at h
      next hgk =>
        injection h with hpair hst'
        injection hpair with hb hp
        exact ⟨resp, rest, hfr, findResponse_matched_id _ _ _ _ hfr, hgk,
          hp.symm, by rw [← hst'], by rw [← hst']⟩
    next hfr => simp at h
    next rest hfr => simp at h
  · intro rid rest
    rfl
  · intro rid rest
    rfl
  · intro rid resp rest hid
    simp [findResponse, hid]
  · intro st r₁ st₁ resp rest hst h hfr
    have hnext := send_request_next_id st "tools/list" hst
    rw [h] at hnext
    have hid := findResponse_matched_id (st₁.request_id + 1) st₁.stream resp rest hfr
    rw [hnext.1] at hid
    exact hid

/-- C3 witness: over a stream holding a junk line and a foreign-id
response before the matching one, the call at request id 1 accepts
exactly the response with id 1 and returns its `result`. -/
theorem C3_send_request_witness :
    ∃ resp rest,
      findResponse (st0.request_id + 1) st0.stream = .matched resp rest ∧
      idMatches resp (st0.request_id + 1) = true ∧
      getKey resp "error" = none ∧
      (JVal.obj [("tools", .arr [])]) = getKeyD resp "result" (.obj []) ∧
      (⟨true, 1, []⟩ : MCPState).request_id = st0.request_id + 1 ∧
      (⟨true, 1, []⟩ : MCPState).stream = rest :=
  C3_send_request_correlation.2.1 st0 (.obj [("tools", .arr [])])
    ⟨true, 1, []⟩ rfl rfl

theorem summarizeCounts_obj (records : List JVal)
    (h : ∀ v ∈ records, ∃ f, v = JVal.obj f) :
    summarizeCounts records =
      .ok (records.length,
        records.countP (fun v => recordFlag "selection_correct" v),
        records.countP (fun v => recordFlag "call_success" v),
        records.countP (fun v => recordFlag "parameter_correct" v)) := by
  induction records with
  | nil => rfl
  | cons v rest ih =>
    obtain ⟨f, hv⟩ := h v (List.mem_cons_self _ _)
    subst hv
    have ih' := ih (fun w hw => h w (List.mem_cons_of_mem _ hw))
    simp [summarizeCounts, ih', Bind.bind, Except.bind, recordFlag,
      List.countP_cons, pure, Except.pure]

/-- C9: on a log of `N` parsed records (each a JSON object), `summarize`
reports `total_cases = N` and `selection_accuracy` exactly `K / N` in
exact (rational) arithmetic, `0` when `N = 0`, where `K` counts the
records whose `selection_correct` field is truthy; whenever the flag
agrees with the literal boolean `true` test on every record — as it
does for every record `evaluate_case` writes, the field being a Python
bool — `K` is exactly the number of records with
`selection_correct = true`. -/
theorem C9_summarize (records : List JVal)
    (h : ∀ v ∈ records, ∃ f, v = JVal.obj f) :
    summarize records =
      .ok { total_cases := records.length
            selection_accuracy :=
              if records.length = 0 then 0 else
                (records.countP (fun v => recordFlag "selection_correct" v) : ℚ) /
                  records.length
            call_success_rate :=
              if records.length = 0 then 0 else
                (records.countP (fun v => recordFlag "call_success" v) : ℚ) /
                  records.length
            parameter_accuracy :=
              if records.length = 0 then 0 else
                (records.countP (fun v => recordFlag "parameter_correct" v) : ℚ) /
                  records.length
            correct_selections :=
              records.countP (fun v => recordFlag "selection_correct" v)
            successful_calls :=
              records.countP (fun v => recordFlag "call_success" v)
            correct_parameters :=
              records.countP (fun v => recordFlag "parameter_correct" v)
            detailed_results := records } ∧
    ((∀ v ∈ records, selTrue v = recordFlag "selection_correct" v) →
      records.countP (fun v => recordFlag "selection_correct" v) =
        records.countP (fun v => selTrue v)) := by
  constructor
  · simp only [summarize, summarizeCounts_obj records h, Bind.bind, Except.bind,
      pure, Except.pure]
    by_cases h0 : records.length = 0
    · simp [h0]
    · simp [h0, Nat.pos_of_ne_zero h0]
  · intro hb
    exact List.countP_congr (fun v hv => by rw [hb v hv])

/-- C9 witness: the summary of two concrete parsed records, one of them
selected correctly. -/
theorem C9_summarize_witness :
    summarize logRecords =
      .ok { total_cases := 2
            selection_accuracy := ((1 : ℕ) : ℚ) / ((2 : ℕ) : ℚ)
            call_success_rate := ((0 : ℕ) : ℚ) / ((2 : ℕ) : ℚ)
            parameter_accuracy := ((1 : ℕ) : ℚ) / ((2 : ℕ) : ℚ)
            correct_selections := 1
            successful_calls := 0
            correct_parameters := 1
            detailed_results := logRecords } :=
  (C9_summarize logRecords (by
    intro v hv
    simp only [logRecords, List.mem_cons, List.not_mem_nil, or_false] at hv
    rcases hv with h1 | h1 <;> exact ⟨_, h1⟩)).1

theorem evaluate_case_eq_of_ok (c : Case) (env : Env) (ts : String) (dur : Int)
    (r : Record) (hb : evaluate_case_body c env (initialRecord c ts) = .ok r) :
    evaluate_case c env ts dur = setKey r "duration_ms" (.num dur) := by
  simp [evaluate_case, hb]

theorem evaluate_case_eq_of_error (c : Case) (env : Env) (ts : String)
    (dur : Int) (r : Record) (msg : String)
    (hb : evaluate_case_body c env (initialRecord c ts) = .error (r, msg)) :
    evaluate_case c env ts dur =
      setKey (setKey r "error_message" (.str ("Evaluation error: " ++ msg)))
        "duration_ms" (.num dur) := by
  simp [evaluate_case, hb]

theorem evaluate_case_body_init_fail (c : Case) (env : Env) (ts : String)
    (h : env.initOk = false) :
    evaluate_case_body c env (initialRecord c ts) =
      .ok (setKey (initialRecord c ts) "error_message"
        (.str "Failed to initialize MCP client")) := by
  simp [evaluate_case_body, h]

theorem evaluate_case_body_list_fail (c : Case) (env : Env) (ts : String)
    (h1 : env.initOk = true) (h2 : env.listOk = false) :
    evaluate_case_body c env (initialRecord c ts) =
      .ok (setKey (initialRecord c ts) "error_message"
        (.str "Failed to list tools from MCP server")) := by
  simp [evaluate_case_body, h1, h2]

theorem evaluate_case_body_llm_error (c : Case) (env : Env) (ts : String)
    (e : String) (h1 : env.initOk = true) (h2 : env.listOk = true)
    (h3 : env.llm.error = some e) :
    evaluate_case_body c env (initialRecord c ts) =
      .ok (setKey (initialRecord c ts) "error_message"
        (.str ("LLM error: " ++ e))) := by
  simp [evaluate_case_body, h1, h2, h3]

theorem evaluate_case_body_no_tool (c : Case) (env : Env) (ts : String)
    (h1 : env.initOk = true) (h2 : env.listOk = true)
    (h3 : env.llm.error = none) (h4 : env.llm.tool_calls = []) :
    evaluate_case_body c env (initialRecord c ts) =
      .ok (setKey (setKey (initialRecord c ts) "selection_correct"
        (.bool false)) "call_success" (.bool false)) := by
  simp [evaluate_case_body, h1, h2, h3, h4]

theorem goodRecord_initial (c : Case) (ts : String) :
    GoodRecord (initialRecord c ts) :=
  Or.inl ⟨rfl, rfl, rfl⟩

theorem goodRecord_setKey_other (r : Record) (k : String) (v : JVal)
    (h1 : ¬("call_result" = k)) (h2 : ¬("technical_success" = k))
    (h3 : ¬("content_quality_check" = k)) (h4 : ¬("call_success" = k))
    (h : GoodRecord r) : GoodRecord (setKey r k v) := by
  rcases h with ⟨a, b, cc⟩ | ⟨cr, a, b, cc⟩ | ⟨cr, t, q, a, b, cc, d⟩
  · exact Or.inl ⟨by rw [getKey_setKey_ne _ _ _ _ h1, a],
      by rw [getKey_setKey_ne _ _ _ _ h2, b],
      by rw [getKey_setKey_ne _ _ _ _ h4, cc]⟩
  · exact Or.inr (Or.inl ⟨cr, by rw [getKey_setKey_ne _ _ _ _ h1, a],
      by rw [getKey_setKey_ne _ _ _ _ h2, b],
      by rw [getKey_setKey_ne _ _ _ _ h4, cc]⟩)
  · exact Or.inr (Or.inr ⟨cr, t, q, by rw [getKey_setKey_ne _ _ _ _ h1, a],
      by rw [getKey_setKey_ne _ _ _ _ h2, b],
      by rw [getKey_setKey_ne _ _ _ _ h3, cc],
      by rw [getKey_setKey_ne _ _ _ _ h4, d]⟩)

theorem goodRecord_B_of (r : Record) (cres : JVal)
    (h2 : getKey r "technical_success" = none)
    (h3 : getKey r "call_success" = some (.bool false)) :
    GoodRecord (setKey r "call_result" cres) :=
  Or.inr (Or.inl ⟨cres, getKey_setKey_self r "call_result" cres,
    by rw [getKey_setKey_ne _ _ _ _ (by decide), h2],
    by rw [getKey_setKey_ne _ _ _ _ (by decide), h3]⟩)

theorem goodRecord_r8_chain (r3 : Record) (cres : JVal) (t q : Bool)
    (reason : String) :
    GoodRecord (setKey (setKey (setKey (setKey (setKey r3 "call_result" cres)
      "technical_success" (.bool t)) "content_quality_check" (.bool q))
      "content_quality_reason" (.str reason))
      "call_success" (.bool (t && q))) := by
  refine Or.inr (Or.inr ⟨cres, t, q, ?_, ?_, ?_, ?_⟩) <;>
    simp [getKey_setKey_self, getKey_setKey_ne]

theorem goodRecord_A_setKey_cs (r : Record)
    (h1 : getKey r "call_result" = none)
    (h2 : getKey r "technical_success" = none) :
    GoodRecord (setKey r "call_success" (.bool false)) :=
  Or.inl ⟨by rw [getKey_setKey_ne _ _ _ _ (by decide), h1],
    by rw [getKey_setKey_ne _ _ _ _ (by decide), h2],
    getKey_setKey_self r _ _⟩

theorem evaluate_case_body_good (c : Case) (env : Env) (ts : String) :
    GoodExcept (evaluate_case_body c env (initialRecord c ts)) := by
  cases hinit : env.initOk with
  | false =>
    rw [evaluate_case_body_init_fail c env ts hinit]
    exact goodRecord_setKey_other _ _ _ (by decide) (by decide) (by decide)
      (by decide) (goodRecord_initial c ts)
  | true =>
    cases hlist : env.listOk with
    | false =>
      rw [evaluate_case_body_list_fail c env ts hinit hlist]
      exact goodRecord_setKey_other _ _ _ (by decide) (by decide) (by decide)
        (by decide) (goodRecord_initial c ts)
    | true =>
      cases herr : env.llm.error with
      | some e =>
        rw [evaluate_case_body_llm_error c env ts e hinit hlist herr]
        exact goodRecord_setKey_other _ _ _ (by decide) (by decide) (by decide)
          (by decide) (goodRecord_initial c ts)
      | none =>
        cases htc : env.llm.tool_calls with
        | nil =>
          rw [evaluate_case_body_no_tool c env ts hinit hlist herr htc]
          exact goodRecord_A_setKey_cs _
            (by simp [getKey_setKey_ne, initialRecord, getKey])
            (by simp [getKey_setKey_ne, initialRecord, getKey])
        | cons first restTc =>
          simp only [evaluate_case_body, hinit, hlist, herr, htc,
            Bool.not_true, Bool.false_eq_true, if_false]
          split
          · exact goodRecord_setKey_other _ _ _ (by decide) (by decide)
              (by decide) (by decide) (goodRecord_setKey_other _ _ _
                (by decide) (by decide) (by decide) (by decide)
                (goodRecord_initial c ts))
          · split
            · exact goodRecord_setKey_other _ _ _ (by decide) (by decide)
                (by decide) (by decide) (goodRecord_setKey_other _ _ _
                  (by decide) (by decide) (by decide) (by decide)
                  (goodRecord_setKey_other _ _ _ (by decide) (by decide)
                    (by decide) (by decide) (goodRecord_initial c ts)))
            · split
              · exact goodRecord_B_of _ _
                  (by simp [getKey_setKey_ne, initialRecord, getKey])
                  (by simp [getKey_setKey_ne, initialRecord, getKey])
              · split
                · exact goodRecord_B_of _ _
                    (by simp [getKey_setKey_ne, initialRecord, getKey])
                    (by simp [getKey_setKey_ne, initialRecord, getKey])
                · repeat' split
                  all_goals
                    first
                    | exact goodRecord_setKey_other _ _ _ (by decide)
                        (by decide) (by decide) (by decide)
                        (goodRecord_r8_chain _ _ _ _ _)
                    | exact goodRecord_r8_chain _ _ _ _ _

theorem evaluate_case_good (c : Case) (env : Env) (ts : String) (dur : Int) :
    GoodRecord (evaluate_case c env ts dur) := by
  have h := evaluate_case_body_good c env ts
  cases hb : evaluate_case_body c env (initialRecord c ts) with
  | ok r =>
    rw [hb] at h
    rw [evaluate_case_eq_of_ok c env ts dur r hb]
    exact goodRecord_setKey_other _ _ _ (by decide) (by decide) (by decide)
      (by decide) h
  | error pr =>
    obtain ⟨r, msg⟩ := pr
    rw [hb] at h
    rw [evaluate_case_eq_of_error c env ts dur r msg hb]
    exact goodRecord_setKey_other _ _ _ (by decide) (by decide) (by decide)
      (by decide) (goodRecord_setKey_other _ _ _ (by decide) (by decide)
        (by decide) (by decide) h)

theorem evaluate_case_tech_none (c : Case) (env : Env) (ts : String) (dur : Int)
    (h : env.initOk = false ∨ env.listOk = false ∨
      (∃ e, env.llm.error = some e) ∨ env.llm.tool_calls = []) :
    getKey (evaluate_case c env ts dur) "technical_success" = none := by
  cases hinit : env.initOk with
  | false =>
    rw [evaluate_case_eq_of_ok c env ts dur _
      (evaluate_case_body_init_fail c env ts hinit)]
    simp [getKey_setKey_ne, initialRecord, getKey]
  | true =>
    cases hlist : env.listOk with
    | false =>
      rw [evaluate_case_eq_of_ok c env ts dur _
        (evaluate_case_body_list_fail c env ts hinit hlist)]
      simp [getKey_setKey_ne, initialRecord, getKey]
    | true =>
      cases herr : env.llm.error with
      | some e =>
        rw [evaluate_case_eq_of_ok c env ts dur _
          (evaluate_case_body_llm_error c env ts e hinit hlist herr)]
        simp [getKey_setKey_ne, initialRecord, getKey]
      | none =>
        cases htc : env.llm.tool_calls with
        | nil =>
          rw [evaluate_case_eq_of_ok c env ts dur _
            (evaluate_case_body_no_tool c env ts hinit hlist herr htc)]
          simp [getKey_setKey_ne, initialRecord, getKey]
        | cons a l =>
          exfalso
          rcases h with h | h | ⟨e, h⟩ | h
          · rw [hinit] at h
            exact Bool.noConfusion h
          · rw [hlist] at h
            exact Bool.noConfusion h
          · rw [herr] at h
            exact Option.noConfusion h
          · rw [htc] at h
            exact List.noConfusion h

/-- C4: in every record produced by `evaluate_case`, whenever the
`technical_success` sub-verdict was recorded (the tool call was invoked
and both classifier layers completed), `call_success` is recorded as
exactly `technical_success AND content_quality_check`; `call_success` is
never true without `technical_success` being true; and in every record
where the call did not reach the tool (no `call_result`: initialization
failure, tools/list failure, model error, no tool call chosen, or an
exception before the call) `call_success` is false. -/
theorem C4_call_success_conjunction (c : Case) (env : Env) (ts : String)
    (dur : Int) :
    (∀ tv, getKey (evaluate_case c env ts dur) "technical_success" = some tv →
      ∃ t q, tv = JVal.bool t ∧
        getKey (evaluate_case c env ts dur) "content_quality_check" =
          some (.bool q) ∧
        getKey (evaluate_case c env ts dur) "call_success" =
          some (.bool (t && q))) ∧
    (getKey (evaluate_case c env ts dur) "call_success" = some (.bool true) →
      getKey (evaluate_case c env ts dur) "technical_success" =
        some (.bool true)) ∧
    (getKey (evaluate_case c env ts dur) "call_result" = none →
      getKey (evaluate_case c env ts dur) "call_success" =
        some (.bool false)) := by
  have hg := evaluate_case_good c env ts dur
  refine ⟨?_, ?_, ?_⟩
  · intro tv htv
    rcases hg with ⟨a, b, cc⟩ | ⟨cr, a, b, cc⟩ | ⟨cr, t, q, a, b, cc, d⟩
    · rw [b] at htv
      exact Option.noConfusion htv
    · rw [b] at htv
      exact Option.noConfusion htv
    · rw [b] at htv
      injection htv with h1
      exact ⟨t, q, h1.symm, cc, d⟩
  · intro hcs
    rcases hg with ⟨a, b, cc⟩ | ⟨cr, a, b, cc⟩ | ⟨cr, t, q, a, b, cc, d⟩
    · rw [cc] at hcs
      injection hcs with h1
      injection h1 with h2
      exact Bool.noConfusion h2
    · rw [cc] at hcs
      injection hcs with h1
      injection h1 with h2
      exact Bool.noConfusion h2
    · rw [d] at hcs
      injection hcs with h1
      injection h1 with h2
      rw [(Bool.and_eq_true_iff.1 h2).1] at b
      exact b
  · intro hcr
    rcases hg with ⟨a, b, cc⟩ | ⟨cr, a, b, cc⟩ | ⟨cr, t, q, a, b, cc, d⟩
    · exact cc
    · rw [a] at hcr
      exact Option.noConfusion hcr
    · rw [a] at hcr
      exact Option.noConfusion hcr

/-- C4 witness: the short-circuit part at an initialization failure, and
the conjunction part at a fully successful concrete run. -/
theorem C4_call_success_witness :
    getKey (evaluate_case caseSearch envInitFail "T" 5) "call_success" =
      some (.bool false) ∧
    (∃ t q, (JVal.bool true : JVal) = JVal.bool t ∧
      getKey (evaluate_case caseSearch envGoodCall "T" 5)
        "content_quality_check" = some (.bool q) ∧
      getKey (evaluate_case caseSearch envGoodCall "T" 5) "call_success" =
        some (.bool (t && q))) :=
  ⟨(C4_call_success_conjunction caseSearch envInitFail "T" 5).2.2 rfl,
   (C4_call_success_conjunction caseSearch envGoodCall "T" 5).1
     (.bool true) rfl⟩

/-- C7 counterexample: the claim says every logged record contains a
`technical_success` sub-verdict, but the record of a case that fails MCP
initialization has no such field — the initial result dict never
declares it and only the classified path adds it. -/
theorem C7_missing_technical_success_counterexample :
    getKey (evaluate_case caseSearch envInitFail "T" 5) "technical_success" =
      none := rfl

/-- C7 (amended): only records in which a tool call was invoked and both
classifier layers completed carry a `technical_success` field (then a
boolean, alongside the raw `call_result`); records short-circuited by an
initialization failure, a tools/list failure, a model error, or the
model returning no tool call lack the field. -/
theorem C7_technical_success_presence (c : Case) (env : Env) (ts : String)
    (dur : Int) :
    (env.initOk = false →
      getKey (evaluate_case c env ts dur) "technical_success" = none) ∧
    (env.listOk = false →
      getKey (evaluate_case c env ts dur) "technical_success" = none) ∧
    (∀ e, env.llm.error = some e →
      getKey (evaluate_case c env ts dur) "technical_success" = none) ∧
    (env.llm.tool_calls = [] →
      getKey (evaluate_case c env ts dur) "technical_success" = none) ∧
    (∀ tv, getKey (evaluate_case c env ts dur) "technical_success" = some tv →
      (∃ t, tv = JVal.bool t) ∧
      ∃ cr, getKey (evaluate_case c env ts dur) "call_result" = some cr) := by
  refine ⟨?_, ?_, ?_, ?_, ?_⟩
  · intro h
    exact evaluate_case_tech_none c env ts dur (Or.inl h)
  · intro h
    exact evaluate_case_tech_none c env ts dur (Or.inr (Or.inl h))
  · intro e h
    exact evaluate_case_tech_none c env ts dur (Or.inr (Or.inr (Or.inl ⟨e, h⟩)))
  · intro h
    exact evaluate_case_tech_none c env ts dur (Or.inr (Or.inr (Or.inr h)))
  · intro tv htv
    rcases evaluate_case_good c env ts dur with
      ⟨a, b, cc⟩ | ⟨cr, a, b, cc⟩ | ⟨cr, t, q, a, b, cc, d⟩
    · rw [b] at htv
      exact Option.noConfusion htv
    · rw [b] at htv
      exact Option.noConfusion htv
    · rw [b] at htv
      injection htv with h1
      exact ⟨⟨t, h1.symm⟩, cr, a⟩

/-- C7 witness: the amended theorem's no-tool-call part at a concrete
environment. -/
theorem C7_technical_success_witness :
    getKey (evaluate_case caseSearch envNoToolCall "T" 5) "technical_success" =
      none :=
  (C7_technical_success_presence caseSearch envNoToolCall "T" 5).2.2.2.1 rfl

/-- C8: when the transport is up and the model responds without error but
returns zero tool calls, the `try` block completes without raising and
the record has `selection_correct = false`, `call_success = false`,
`chosen_tool = None`, and `error_message` still `None` (no error
message). -/
theorem C8_no_tool_call (c : Case) (env : Env) (ts : String) (dur : Int)
    (h1 : env.initOk = true) (h2 : env.listOk = true)
    (h3 : env.llm.error = none) (h4 : env.llm.tool_calls = []) :
    (∃ r, evaluate_case_body c env (initialRecord c ts) = Except.ok r) ∧
    getKey (evaluate_case c env ts dur) "selection_correct" =
      some (.bool false) ∧
    getKey (evaluate_case c env ts dur) "call_success" = some (.bool false) ∧
    getKey (evaluate_case c env ts dur) "chosen_tool" = some JVal.null ∧
    getKey (evaluate_case c env ts dur) "error_message" = some JVal.null := by
  have hb := evaluate_case_body_no_tool c env ts h1 h2 h3 h4
  rw [evaluate_case_eq_of_ok c env ts dur _ hb]
  refine ⟨⟨_, hb⟩, ?_, ?_, ?_, ?_⟩ <;>
    simp [getKey_setKey_self, getKey_setKey_ne, initialRecord, getKey]

/-- C8 witness: the no-tool-call record at a concrete environment. -/
theorem C8_no_tool_call_witness :
    getKey (evaluate_case caseSearch envNoToolCall "T" 5) "chosen_tool" =
      some JVal.null :=
  (C8_no_tool_call caseSearch envNoToolCall "T" 5 rfl rfl rfl rfl).2.2.2.1

end MCPEval
